import Mathlib

/-!
Shallow embedding of the rule-based customer-support chatbot (`src/app.py`):
the entity extractors (`extract_name`, `extract_order_number`), the intent
classifier (`match_intent`) over the built-in fallback catalog (`responses`),
the response generator (`get_personalized_response`), the session store and
the per-turn orchestrator (`chat`), plus the history and clear endpoints.

Modelling conventions:
* Python `str` values manipulated character-wise are `List Char`; values only
  stored or compared are `String`.
* Character classes are the ASCII fragments of Python's `\s`, `\w`, `\d` and
  `str.lower`; the source only configures ASCII patterns.
* `re.search` is leftmost-match search (`searchFirst`); each regex of the
  source is compiled to a deterministic matcher at a position, faithful to the
  greedy semantics of the concrete patterns (no backtracking is possible for
  them because the alternatives' first characters are disjoint).
* `re.IGNORECASE` in `extract_order_number` is modelled by lower-casing the
  input; the captured digits are unchanged by case folding.
* Randomness (`random.choice`, `random.random() > 0.5`) is an explicit input
  `Draws` (an index into the pool and the personalization coin).
* The TextBlob sentiment scorer is external to the core per the spec; the
  orchestrator takes the computed sentiment label as an input.
* Python exceptions that the generator could raise (choice from an empty
  pool, indexing an empty response) are modelled as a `none` response.
* `datetime.now()` timestamps are opaque `Nat` inputs.
* `ChatGhost` is ghost instrumentation recording which components a turn
  invoked; it does not influence any computed value.
-/

/-- ASCII whitespace, matching Python's default `str.strip`/`\s` on ASCII:
space, tab, newline, carriage return, vertical tab, form feed. -/
def isWS (c : Char) : Bool :=
  c.toNat = 32 || c.toNat = 9 || c.toNat = 10 || c.toNat = 13 ||
  c.toNat = 11 || c.toNat = 12

/-- ASCII fragment of Python's regex `\w`: letters, digits, underscore. -/
def isWordChar (c : Char) : Bool :=
  (97 ≤ c.toNat && c.toNat ≤ 122) || (65 ≤ c.toNat && c.toNat ≤ 90) ||
  (48 ≤ c.toNat && c.toNat ≤ 57) || c.toNat = 95

/-- ASCII decimal digit, Python's regex `\d` on ASCII. -/
def isDigitC (c : Char) : Bool :=
  48 ≤ c.toNat && c.toNat ≤ 57

/-- The apostrophe character (used in source literals such as `i'm`). -/
def apos : Char := Char.ofNat 39

/-- Apostrophe as a one-character string. -/
def aposS : String := String.singleton apos

/-- ASCII lower-casing of one character (Python `str.lower` restricted to the
ASCII letters, the only case-carrying characters in the source's patterns). -/
def lowerChar (c : Char) : Char :=
  if c = 'A' then 'a' else if c = 'B' then 'b' else if c = 'C' then 'c' else
  if c = 'D' then 'd' else if c = 'E' then 'e' else if c = 'F' then 'f' else
  if c = 'G' then 'g' else if c = 'H' then 'h' else if c = 'I' then 'i' else
  if c = 'J' then 'j' else if c = 'K' then 'k' else if c = 'L' then 'l' else
  if c = 'M' then 'm' else if c = 'N' then 'n' else if c = 'O' then 'o' else
  if c = 'P' then 'p' else if c = 'Q' then 'q' else if c = 'R' then 'r' else
  if c = 'S' then 's' else if c = 'T' then 't' else if c = 'U' then 'u' else
  if c = 'V' then 'v' else if c = 'W' then 'w' else if c = 'X' then 'x' else
  if c = 'Y' then 'y' else if c = 'Z' then 'z' else c

/-- ASCII upper-casing of one character (for Python `str.capitalize`). -/
def upperChar (c : Char) : Char :=
  if c = 'a' then 'A' else if c = 'b' then 'B' else if c = 'c' then 'C' else
  if c = 'd' then 'D' else if c = 'e' then 'E' else if c = 'f' then 'F' else
  if c = 'g' then 'G' else if c = 'h' then 'H' else if c = 'i' then 'I' else
  if c = 'j' then 'J' else if c = 'k' then 'K' else if c = 'l' then 'L' else
  if c = 'm' then 'M' else if c = 'n' then 'N' else if c = 'o' then 'O' else
  if c = 'p' then 'P' else if c = 'q' then 'Q' else if c = 'r' then 'R' else
  if c = 's' then 'S' else if c = 't' then 'T' else if c = 'u' then 'U' else
  if c = 'v' then 'V' else if c = 'w' then 'W' else if c = 'x' then 'X' else
  if c = 'y' then 'Y' else if c = 'z' then 'Z' else c

/-- `message.lower()` character-wise. -/
def lowerList (s : List Char) : List Char := s.map lowerChar

/-- `message.strip()`: drop leading and trailing whitespace. -/
def stripList (s : List Char) : List Char :=
  (((s.dropWhile isWS).reverse.dropWhile isWS)).reverse

/-- Python `str.capitalize`: first character upper-cased, rest lower-cased. -/
def pyCapitalize : List Char → List Char
  | [] => []
  | c :: rest => upperChar c :: rest.map lowerChar

/-- Match a literal character sequence at the head of `u`, returning the
remainder after the literal. -/
def dropLit : List Char → List Char → Option (List Char)
  | [], u => some u
  | _ :: _, [] => none
  | l :: ls, c :: cs => if l = c then dropLit ls cs else none

/-- `re.search` as leftmost-position search: try the positional matcher `f`
at every suffix of the text, left to right (including the empty suffix, as
`re.search` does at the end of the string). -/
def searchFirst {α : Type} (f : List Char → Option α) : List Char → Option α
  | [] => f []
  | c :: r =>
    match f (c :: r) with
    | some a => some a
    | none => searchFirst f r

/-- Positional matcher for a name pattern `lit(\w+)` of `extract_name`: the
literal followed by a greedy non-empty word-character capture. -/
def nameCapAt (lit : List Char) (u : List Char) : Option (List Char) :=
  match dropLit lit u with
  | none => none
  | some r =>
    match r.takeWhile isWordChar with
    | [] => none
    | w => some w

/-- The five name-introduction pattern literals of `extract_name`, in source
order: `my name is`, `i am`, `i'm`, `call me`, `this is` (each followed by a
single space and then the `(\w+)` capture). -/
def name_pattern_lits : List (List Char) :=
  ["my name is ".toList, "i am ".toList,
   "i".toList ++ [apos] ++ "m ".toList,
   "call me ".toList, "this is ".toList]

/-- The pattern loop of `extract_name`: first pattern whose search succeeds. -/
def firstPat (m : List Char) : List (List Char) → Option (List Char)
  | [] => none
  | lit :: rest =>
    match searchFirst (nameCapAt lit) m with
    | some w => some w
    | none => firstPat m rest

/-- `extract_name(message)`: lower-case the message, try the five patterns in
order, return the first match's capture, capitalized; `None` otherwise. -/
def extract_name (message : List Char) : Option String :=
  (firstPat (lowerList message) name_pattern_lits).map
    (fun w => String.mk (pyCapitalize w))

/-- The greedy capture `(\d{5,})`: succeed with the maximal digit run at the
head when it has at least five digits. -/
def ordDigits (u : List Char) : Option String :=
  if 5 ≤ (u.takeWhile isDigitC).length then
    some (String.mk (u.takeWhile isDigitC))
  else none

/-- The optional `#?` of the order regexes: consume one `#` if present. -/
def ordHash (u : List Char) : List Char :=
  match u with
  | c :: r => if c = '#' then r else u
  | [] => u

/-- The optional `[-]?` of the `ORD` regex: consume one `-` if present. -/
def ordDash (u : List Char) : List Char :=
  match u with
  | c :: r => if c = '-' then r else u
  | [] => u

/-- The suffix `\s*#?\s*(\d{5,})` of the regexes `order\s*#?\s*(\d{5,})` and
`tracking\s*#?\s*(\d{5,})`, applied after the literal: skip whitespace, an
optional `#`, more whitespace, then require at least five digits. -/
def ordAfterLit (u : List Char) : Option String :=
  ordDigits ((ordHash (u.dropWhile isWS)).dropWhile isWS)

/-- Positional matcher for `lit\s*#?\s*(\d{5,})` (patterns 1 and 4 of
`extract_order_number`, with `lit` = `order` or `tracking`). -/
def ordPatLit (lit : List Char) (u : List Char) : Option String :=
  match dropLit lit u with
  | none => none
  | some r => ordAfterLit r

/-- Positional matcher for `#(\d{5,})` (pattern 2 of `extract_order_number`). -/
def ordPatHash (u : List Char) : Option String :=
  match u with
  | c :: r => if c = '#' then ordDigits r else none
  | [] => none

/-- Positional matcher for `ORD[-]?(\d{5,})` (pattern 3 of
`extract_order_number`, case-insensitive, so `ord` on the lowered text). -/
def ordPatORD (u : List Char) : Option String :=
  match dropLit "ord".toList u with
  | none => none
  | some r => ordDigits (ordDash r)

/-- `extract_order_number(message)`: try the four order-reference regexes in
source order, case-insensitively (modelled by lower-casing the input; the
captured digits are unchanged by case), returning the first capture. -/
def extract_order_number (message : List Char) : Option String :=
  match searchFirst (ordPatLit "order".toList) (lowerList message) with
  | some d => some d
  | none =>
    match searchFirst ordPatHash (lowerList message) with
    | some d => some d
    | none =>
      match searchFirst ordPatORD (lowerList message) with
      | some d => some d
      | none => searchFirst (ordPatLit "tracking".toList) (lowerList message)

/-- One entry of the intent catalog: trigger patterns and response pool. -/
structure IntentData where
  patterns : List String
  responses : List String
deriving DecidableEq, Repr

/-- Generic ordered-dictionary lookup (Python `dict` access / `in`). -/
def alist_get {α : Type} : List (String × α) → String → Option α
  | [], _ => none
  | (k, v) :: rest, key => if k = key then some v else alist_get rest key

/-- Replace the value at a key, or append the binding if absent
(Python `dict.__setitem__`). -/
def alist_set {α : Type} : List (String × α) → String → α → List (String × α)
  | [], key, v => [(key, v)]
  | (k, w) :: rest, key, v =>
    if k = key then (k, v) :: rest else (k, w) :: alist_set rest key v

/-- Remove a key if present (Python `del d[key]` guarded by `key in d`). -/
def alist_erase {α : Type} : List (String × α) → String → List (String × α)
  | [], _ => []
  | (k, w) :: rest, key =>
    if k = key then alist_erase rest key else (k, w) :: alist_erase rest key

/-- The built-in fallback intent catalog created when `responses.json` is
absent (it is absent in this repository), in insertion order. -/
def responses : List (String × IntentData) :=
  [("greeting",
    { patterns := ["hello", "hi", "hey", "good morning", "good afternoon",
                   "good evening"],
      responses := ["Hello! 👋 How can I help you today?"] }),
   ("return",
    { patterns := ["return", "refund", "exchange", "send back"],
      responses := ["You can return items within 30 days of purchase."] }),
   ("default",
    { patterns := [],
      responses := ["I" ++ aposS ++ "m not sure about that. Can you rephrase?"] })]

/-- The fixed priority-intent list of `match_intent`. -/
def priority_intents : List String :=
  ["return", "refund", "shipping", "payment", "contact"]

/-- Python `str.split()` with no argument: split on whitespace runs,
producing no empty tokens. -/
def splitWSAux : List Char → List Char → List (List Char)
  | [], acc => if acc.isEmpty then [] else [acc.reverse]
  | c :: r, acc =>
    if isWS c then
      (if acc.isEmpty then splitWSAux r [] else acc.reverse :: splitWSAux r [])
    else splitWSAux r (c :: acc)

/-- `message.split()` (whitespace tokenization). -/
def splitWS (s : List Char) : List (List Char) := splitWSAux s []

/-- `set(pattern.split()).issubset(words)`. -/
def subsetWords (pw words : List (List Char)) : Bool :=
  pw.all (fun w => words.contains w)

/-- The priority-intent loop of `match_intent`: for each priority intent
present in the catalog, fire if some pattern's word set is a subset of the
message's word set. -/
def priorityScan (words : List (List Char)) : List String → Option String
  | [] => none
  | i :: rest =>
    match alist_get responses i with
    | some d =>
      if d.patterns.any (fun p => subsetWords (splitWS p.toList) words) then
        some i
      else priorityScan words rest
    | none => priorityScan words rest

/-- Word-character status of an optional character; out-of-string counts as
non-word, as for Python's `\b`. -/
def isWordO : Option Char → Bool
  | none => false
  | some c => isWordChar c

/-- The last character of the would-be match, for the closing `\b`. -/
def lastO (pat : List Char) (prev : Option Char) : Option Char :=
  match pat.getLast? with
  | some c => some c
  | none => prev

/-- `re.search(r'\b' + re.escape(pattern) + r'\b', message)` tested at one
position: the literal matches and both ends sit on a word boundary; `prev` is
the character before the position. -/
def bAt (pat s : List Char) (prev : Option Char) : Bool :=
  pat.isPrefixOf s
  && (isWordO prev != isWordO s.head?)
  && (isWordO (lastO pat prev) != isWordO ((s.drop pat.length).head?))

/-- Word-boundary search over all positions. -/
def bSearch (pat : List Char) : Option Char → List Char → Bool
  | prev, [] => bAt pat [] prev
  | prev, c :: rest => bAt pat (c :: rest) prev || bSearch pat (some c) rest

/-- Python `pattern in message`: contiguous substring test. -/
def isSubL : List Char → List Char → Bool
  | pat, [] => pat.isEmpty
  | pat, c :: r => pat.isPrefixOf (c :: r) || isSubL pat r

/-- The general-intent loop of `match_intent`: every non-default,
non-priority catalog intent fires on a word-boundary or plain substring
occurrence of one of its patterns, in catalog order. -/
def generalScan (message : List Char) : List (String × IntentData) → Option String
  | [] => none
  | (i, d) :: rest =>
    if i = "default" ∨ i ∈ priority_intents then generalScan message rest
    else if d.patterns.any
        (fun p => bSearch p.toList none message || isSubL p.toList message) then
      some i
    else generalScan message rest

/-- The greeting fallback substrings of `match_intent`. -/
def greeting_fallback : List String := ["hello", "hi", "hey", "greetings"]

/-- `match_intent(message)`: lower-case and strip, then resolve in priority
order: name introduction, order tracking, priority intents by word-set
inclusion, general catalog intents by boundary/substring match, greeting
substrings, and finally `default`. -/
def match_intent (message0 : List Char) : String :=
  let message := stripList (lowerList message0)
  if (extract_name message).isSome then "name_intro"
  else if (extract_order_number message).isSome then "order_tracking"
  else
    let words := splitWS message
    match priorityScan words priority_intents with
    | some i => i
    | none =>
      match generalScan message responses with
      | some i => i
      | none =>
        if greeting_fallback.any (fun g => isSubL g.toList message) then
          "greeting"
        else "default"

/-- Company support phone constant from the source. -/
def SUPPORT_PHONE : String := "1-800-123-4567"

/-- The static quick-replies table of `get_quick_replies`. -/
def quick_replies_map : List (String × List String) :=
  [("greeting", ["Store hours", "Return policy", "Shipping info", "Contact us"]),
   ("hours", ["Weekend hours", "Holiday hours", "Location hours"]),
   ("return", ["Start a return", "Return policy", "Exchange item", "Refund status"]),
   ("shipping", ["Track my order", "Shipping cost", "Delivery time", "Free shipping"]),
   ("payment", ["Credit card", "PayPal", "Installments", "Gift card"]),
   ("contact", [SUPPORT_PHONE, "Email support", "Live chat", "Call me"]),
   ("thanks", ["You" ++ aposS ++ "re welcome!", "Any other questions?",
               "Have a great day!"]),
   ("goodbye", ["Thanks for chatting!", "Come back soon!", "Rate your experience"]),
   ("default", ["Store hours", "Return policy", "Shipping info", "Contact us"])]

/-- `get_quick_replies(intent)`: table lookup with the `default` fallback. -/
def get_quick_replies (intent : String) : List String :=
  match alist_get quick_replies_map intent with
  | some l => l
  | none =>
    match alist_get quick_replies_map "default" with
    | some l => l
    | none => []

/-- One log entry of a session (`{'role', 'message', 'timestamp'}`). -/
structure Message where
  role : String
  message : String
  timestamp : Nat
deriving DecidableEq, Repr

/-- Per-session conversation state, as initialized in `chat`. -/
structure Session where
  name : Option String
  message_count : Nat
  last_intent : Option String
  last_order : Option String
  messages : List Message
  created_at : Nat
deriving DecidableEq, Repr

/-- The process-wide `conversations` store: an ordered map from session id
to session state. -/
abbrev Conversations := List (String × Session)

/-- A fresh session record as `chat` initializes it. -/
def freshSession (t : Nat) : Session :=
  { name := none, message_count := 0, last_intent := none, last_order := none,
    messages := [], created_at := t }

/-- The random draws of one turn: the `random.choice` index and the
`random.random() > 0.5` personalization coin. -/
structure Draws where
  ix : Nat
  coin : Bool
deriving DecidableEq, Repr

/-- `random.choice(pool)` with the draw index; `none` models the exception on
an empty pool. -/
def pyChoice (pool : List String) (r : Draws) : Option String :=
  match pool with
  | [] => none
  | p :: ps => some (List.getD (p :: ps) (r.ix % (p :: ps).length) p)

/-- The response pool of the `default` intent (`responses['default']`). -/
def default_pool : List String :=
  match alist_get responses "default" with
  | some d => d.responses
  | none => []

/-- The pool `get_personalized_response` draws from: the intent's own pool
when the intent is a non-default catalog entry, otherwise the default pool. -/
def pool_for (intent : String) : List String :=
  match alist_get responses intent with
  | some d => if intent = "default" then default_pool else d.responses
  | none => default_pool

/-- The catalog/default-pool tail of `get_personalized_response`: pick a
response from the intent's pool (or the default pool), then optionally
prefix the known name, lower-casing the response's first letter. A `none`
response models the exceptions Python could raise here. -/
def gpr_pool (intent : String) (session_data : Session) (r : Draws) :
    Option String × Session :=
  match pyChoice (pool_for intent) r with
  | none => (none, session_data)
  | some response =>
    if session_data.name.isSome && r.coin then
      match session_data.name, response.toList with
      | some nm, c :: rest =>
        (some (nm ++ ", " ++ String.mk (lowerChar c :: rest)), session_data)
      | _, _ => (none, session_data)
    else (some response, session_data)

/-- The order-tracking branch of `get_personalized_response` (and its
fallthrough to the pool branch). -/
def gpr_order (intent : String) (session_data : Session)
    (user_message : List Char) (r : Draws) : Option String × Session :=
  if intent = "order_tracking" then
    match extract_order_number user_message with
    | some order_number =>
      (some ("Let me check order #" ++ order_number ++ " for you... 📦 It" ++
             aposS ++ "s currently being processed and will ship within 2 business days."),
       { session_data with last_order := some order_number })
    | none => gpr_pool intent session_data r
  else gpr_pool intent session_data r

/-- `get_personalized_response(intent, session_data, user_message)`:
the name-introduction branch, then the order-tracking branch, then the
catalog/default pool with optional personalization. Returns the (optional)
response together with the updated session. -/
def get_personalized_response (intent : String) (session_data : Session)
    (user_message : List Char) (r : Draws) : Option String × Session :=
  if intent = "name_intro" then
    match extract_name user_message with
    | some name =>
      (some ("Nice to meet you, " ++ name ++ "! 🎉 How can I help you today?"),
       { session_data with name := some name })
    | none => gpr_order intent session_data user_message r
  else gpr_order intent session_data user_message r

/-- The JSON object returned by the `/chat` endpoint. `intent` and `name`
are wrapped in `Option` at the field level because the escalation branch's
JSON omits them entirely: `none` means the field is absent. -/
structure ChatResult where
  response : String
  intent : Option String
  sentiment : String
  quick_replies : List String
  name : Option (Option String)
  session_id : String
deriving DecidableEq, Repr

/-- Ghost trace of which components a turn invoked (not part of the
computation; used only to state non-invocation properties). -/
structure ChatGhost where
  classifier_invoked : Bool
  generator_invoked : Bool
deriving DecidableEq, Repr

/-- Outcome of one `/chat` call: the JSON result (`none` models an
uncaught exception), the updated store, and the ghost trace. -/
structure ChatOut where
  result : Option ChatResult
  conv : Conversations
  ghost : ChatGhost
deriving DecidableEq, Repr

/-- Record the inbound user message: increment the counter and append the
user log entry, as `chat` does before the escalation check. -/
def recordUser (s : Session) (msg : List Char) (t : Nat) : Session :=
  { s with message_count := s.message_count + 1,
           messages := s.messages ++
             [{ role := "user", message := String.mk msg, timestamp := t }] }

/-- The escalation offer text of `chat`. -/
def escalation_text : String :=
  "I notice you seem frustrated. Would you like me to connect you with a human agent? 🤝"

/-- The `/chat` endpoint for one turn: get-or-create the session, record the
user message, short-circuit to the escalation offer on negative sentiment
with message count above three, otherwise classify, generate the response,
record the bot message and assemble the full result. `sentiment` is the
label computed by the external sentiment scorer; `t1`, `t2` are the two
timestamps taken during the turn. -/
def chat (conv : Conversations) (user_message : List Char)
    (session_id : String) (sentiment : String) (t1 t2 : Nat) (r : Draws) :
    ChatOut :=
  let s0 := (alist_get conv session_id).getD (freshSession t1)
  let s1 := recordUser s0 user_message t1
  if sentiment = "negative" ∧ 3 < s1.message_count then
    { result := some
        { response := escalation_text,
          intent := none,
          sentiment := sentiment,
          quick_replies := ["Yes please", "No thanks", "Continue chat"],
          name := none,
          session_id := session_id },
      conv := alist_set conv session_id s1,
      ghost := { classifier_invoked := false, generator_invoked := false } }
  else
    let intent := match_intent user_message
    let s2 := { s1 with last_intent := some intent }
    match get_personalized_response intent s2 user_message r with
    | (some response, s3) =>
      let s4 := { s3 with messages := s3.messages ++
        [{ role := "bot", message := response, timestamp := t2 }] }
      { result := some
          { response := response,
            intent := some intent,
            sentiment := sentiment,
            quick_replies := get_quick_replies intent,
            name := some s3.name,
            session_id := session_id },
        conv := alist_set conv session_id s4,
        ghost := { classifier_invoked := true, generator_invoked := true } }
    | (none, s3) =>
      { result := none,
        conv := alist_set conv session_id s3,
        ghost := { classifier_invoked := true, generator_invoked := true } }

/-- Session metadata as returned by `/history/<session_id>`. -/
structure SessionMeta where
  name : Option String
  message_count : Nat
  created_at : Nat
deriving DecidableEq, Repr

/-- The JSON object of `/history/<session_id>`; `session_data = none` models
the empty `{}` object returned for an unknown id. -/
structure HistoryResult where
  history : List Message
  session_data : Option SessionMeta
deriving DecidableEq, Repr

/-- The `/history/<session_id>` endpoint. -/
def get_history (conv : Conversations) (session_id : String) : HistoryResult :=
  match alist_get conv session_id with
  | some s =>
    { history := s.messages,
      session_data := some
        { name := s.name, message_count := s.message_count,
          created_at := s.created_at } }
  | none => { history := [], session_data := none }

/-- The `/clear/<session_id>` endpoint: delete the session if present and
return the confirmation status in either case. -/
def clear_session (conv : Conversations) (session_id : String) :
    String × Conversations :=
  ("cleared", alist_erase conv session_id)

/-- One operation against the store, for stating store-wide invariants. -/
inductive Op where
  | chatTurn (msg : List Char) (sid : String) (sentiment : String)
             (t1 t2 : Nat) (r : Draws)
  | clearTurn (sid : String)
deriving Repr

/-- Apply one operation to the store. -/
def applyOp (conv : Conversations) : Op → Conversations
  | .chatTurn msg sid sentiment t1 t2 r =>
    (chat conv msg sid sentiment t1 t2 r).conv
  | .clearTurn sid => (clear_session conv sid).2

/-- Run a sequence of operations from a given store. -/
def runOps : List Op → Conversations → Conversations
  | [], conv => conv
  | op :: rest, conv => runOps rest (applyOp conv op)

/-- Number of user-role entries in a log. -/
def userCount (ms : List Message) : Nat :=
  (ms.filter (fun m => m.role = "user")).length

/-- The session-store invariant of the spec: every stored session's message
counter equals the number of user-role entries in its log. -/
def sessionInv (conv : Conversations) : Prop :=
  ∀ sid s, alist_get conv sid = some s → s.message_count = userCount s.messages

/-- A message containing both a name-introduction pattern and an order
reference: the name pattern `this is X` captures the word `order`. -/
def preempt_msg : List Char := "this is order #123456".toList

/-- State of the C1/C9 witness session before its escalating turn. -/
def sessW : Session :=
  { name := none, message_count := 3, last_intent := none, last_order := none,
    messages := [{ role := "user", message := "a", timestamp := 0 },
                 { role := "user", message := "b", timestamp := 1 },
                 { role := "user", message := "c", timestamp := 2 }],
    created_at := 0 }

/-- Store of the C1/C9 witness. -/
def escConvW : Conversations := [("w1", sessW)]

/-- The result record of the C8 witness turn. -/
def resW : ChatResult :=
  { response := "Hello! 👋 How can I help you today?",
    intent := some "greeting",
    sentiment := "neutral",
    quick_replies := ["Store hours", "Return policy", "Shipping info",
                      "Contact us"],
    name := some none,
    session_id := "s1" }

/-! ### Character-level facts -/

set_option maxHeartbeats 1000000 in
theorem lowerChar_cases (c : Char) :
    lowerChar c = c ∨ lowerChar c ∈
      ['a', 'b', 'c', 'd', 'e', 'f', 'g', 'h', 'i', 'j', 'k', 'l', 'm',
       'n', 'o', 'p', 'q', 'r', 's', 't', 'u', 'v', 'w', 'x', 'y', 'z'] := by
  rw [lowerChar]
  by_cases h1 : c = 'A'
  · rw [if_pos h1]; right; decide
  rw [if_neg h1]
  by_cases h2 : c = 'B'
  · rw [if_pos h2]; right; decide
  rw [if_neg h2]
  by_cases h3 : c = 'C'
  · rw [if_pos h3]; right; decide
  rw [if_neg h3]
  by_cases h4 : c = 'D'
  · rw [if_pos h4]; right; decide
  rw [if_neg h4]
  by_cases h5 : c = 'E'
  · rw [if_pos h5]; right; decide
  rw [if_neg h5]
  by_cases h6 : c = 'F'
  · rw [if_pos h6]; right; decide
  rw [if_neg h6]
  by_cases h7 : c = 'G'
  · rw [if_pos h7]; right; decide
  rw [if_neg h7]
  by_cases h8 : c = 'H'
  · rw [if_pos h8]; right; decide
  rw [if_neg h8]
  by_cases h9 : c = 'I'
  · rw [if_pos h9]; right; decide
  rw [if_neg h9]
  by_cases h10 : c = 'J'
  · rw [if_pos h10]; right; decide
  rw [if_neg h10]
  by_cases h11 : c = 'K'
  · rw [if_pos h11]; right; decide
  rw [if_neg h11]
  by_cases h12 : c = 'L'
  · rw [if_pos h12]; right; decide
  rw [if_neg h12]
  by_cases h13 : c = 'M'
  · rw [if_pos h13]; right; decide
  rw [if_neg h13]
  by_cases h14 : c = 'N'
  · rw [if_pos h14]; right; decide
  rw [if_neg h14]
  by_cases h15 : c = 'O'
  · rw [if_pos h15]; right; decide
  rw [if_neg h15]
  by_cases h16 : c = 'P'
  · rw [if_pos h16]; right; decide
  rw [if_neg h16]
  by_cases h17 : c = 'Q'
  · rw [if_pos h17]; right; decide
  rw [if_neg h17]
  by_cases h18 : c = 'R'
  · rw [if_pos h18]; right; decide
  rw [if_neg h18]
  by_cases h19 : c = 'S'
  · rw [if_pos h19]; right; decide
  rw [if_neg h19]
  by_cases h20 : c = 'T'
  · rw [if_pos h20]; right; decide
  rw [if_neg h20]
  by_cases h21 : c = 'U'
  · rw [if_pos h21]; right; decide
  rw [if_neg h21]
  by_cases h22 : c = 'V'
  · rw [if_pos h22]; right; decide
  rw [if_neg h22]
  by_cases h23 : c = 'W'
  · rw [if_pos h23]; right; decide
  rw [if_neg h23]
  by_cases h24 : c = 'X'
  · rw [if_pos h24]; right; decide
  rw [if_neg h24]
  by_cases h25 : c = 'Y'
  · rw [if_pos h25]; right; decide
  rw [if_neg h25]
  by_cases h26 : c = 'Z'
  · rw [if_pos h26]; right; decide
  rw [if_neg h26]
  left; rfl

theorem lowerChar_idem (c : Char) : lowerChar (lowerChar c) = lowerChar c := by
  rcases lowerChar_cases c with h | h
  · rw [h]; exact h
  · simp only [List.mem_cons, List.not_mem_nil, or_false] at h
    rcases h with h|h|h|h|h|h|h|h|h|h|h|h|h|h|h|h|h|h|h|h|h|h|h|h|h|h <;>
      rw [h] <;> decide

theorem mem_lowerList_fix {c : Char} {m : List Char} (h : c ∈ lowerList m) :
    lowerChar c = c := by
  rw [lowerList, List.mem_map] at h
  obtain ⟨a, _, rfl⟩ := h
  exact lowerChar_idem a

theorem mem_stripList {c : Char} {s : List Char} (h : c ∈ stripList s) :
    c ∈ s := by
  rw [stripList, List.mem_reverse] at h
  have h1 : c ∈ (s.dropWhile isWS).reverse :=
    List.Sublist.mem h (List.dropWhile_sublist _)
  rw [List.mem_reverse] at h1
  exact List.Sublist.mem h1 (List.dropWhile_sublist _)

theorem lowerList_stripList (m : List Char) :
    lowerList (stripList (lowerList m)) = stripList (lowerList m) := by
  show (stripList (lowerList m)).map lowerChar = stripList (lowerList m)
  have h : ∀ c ∈ stripList (lowerList m), lowerChar c = id c :=
    fun c hc => mem_lowerList_fix (mem_stripList hc)
  rw [List.map_congr_left h, List.map_id]

theorem isWordChar_not_ws {c : Char} (h : isWordChar c = true) :
    isWS c = false := by
  simp only [isWordChar, Bool.or_eq_true, Bool.and_eq_true,
    decide_eq_true_eq] at h
  simp only [isWS, Bool.or_eq_false_iff, decide_eq_false_iff_not]
  omega

theorem isDigitC_not_ws {c : Char} (h : isDigitC c = true) :
    isWS c = false := by
  simp only [isDigitC, Bool.and_eq_true, decide_eq_true_eq] at h
  simp only [isWS, Bool.or_eq_false_iff, decide_eq_false_iff_not]
  omega

theorem not_word_of_ws {c : Char} (h : isWS c = true) :
    isWordChar c = false := by
  cases hw : isWordChar c
  · rfl
  · rw [isWordChar_not_ws hw] at h; exact h.symm

theorem not_digit_of_ws {c : Char} (h : isWS c = true) :
    isDigitC c = false := by
  cases hw : isDigitC c
  · rfl
  · rw [isDigitC_not_ws hw] at h; exact h.symm

/-! ### Whitespace and list helpers -/

theorem dropWhile_nil_of_allWS {w : List Char}
    (hw : ∀ c ∈ w, isWS c = true) : w.dropWhile isWS = [] := by
  induction w with
  | nil => rfl
  | cons c r ih =>
    rw [List.dropWhile_cons, if_pos (hw c (List.mem_cons_self _ _))]
    exact ih fun x hx => hw x (List.mem_cons_of_mem _ hx)

theorem takeWhile_append_of_none {p : Char → Bool} {w : List Char}
    (hw : ∀ c ∈ w, p c = false) :
    ∀ v : List Char, (v ++ w).takeWhile p = v.takeWhile p := by
  intro v
  induction v with
  | nil =>
    cases w with
    | nil => rfl
    | cons c r => simp [List.takeWhile_cons, hw c (List.mem_cons_self _ _)]
  | cons a v' ih =>
    cases h : p a <;> simp [List.takeWhile_cons, h, ih]

theorem dropWhile_ws_append_cases {w : List Char}
    (hw : ∀ c ∈ w, isWS c = true) :
    ∀ u : List Char,
      (∃ c t, u.dropWhile isWS = c :: t ∧ isWS c = false ∧
        (u ++ w).dropWhile isWS = c :: (t ++ w)) ∨
      (u.dropWhile isWS = [] ∧ (u ++ w).dropWhile isWS = []) := by
  intro u
  induction u with
  | nil => right; exact ⟨rfl, by simpa using dropWhile_nil_of_allWS hw⟩
  | cons c u' ih =>
    by_cases h : isWS c
    · rcases ih with ⟨c2, t, h1, h2, h3⟩ | ⟨h1, h2⟩
      · left
        exact ⟨c2, t, by rw [List.dropWhile_cons, if_pos h]; exact h1, h2,
          by rw [List.cons_append, List.dropWhile_cons, if_pos h]; exact h3⟩
      · right
        exact ⟨by rw [List.dropWhile_cons, if_pos h]; exact h1,
          by rw [List.cons_append, List.dropWhile_cons, if_pos h]; exact h2⟩
    · left
      refine ⟨c, u', ?_, by simpa using h, ?_⟩
      · rw [List.dropWhile_cons, if_neg h]
      · rw [List.cons_append, List.dropWhile_cons, if_neg h]

/-! ### Literal matching -/

theorem dropLit_some_cons {l : Char} {ls u rem : List Char}
    (h : dropLit (l :: ls) u = some rem) :
    ∃ u', u = l :: u' ∧ dropLit ls u' = some rem := by
  cases u with
  | nil => exact absurd h (by simp [dropLit])
  | cons c cs =>
    by_cases hc : l = c
    · subst hc; exact ⟨cs, rfl, by simpa [dropLit] using h⟩
    · rw [dropLit, if_neg hc] at h; cases h

theorem dropLit_append_ws {w : List Char} (hw : ∀ c ∈ w, isWS c = true) :
    ∀ lit : List Char, (∀ c ∈ lit, isWS c = false) →
    ∀ x, dropLit lit (x ++ w) = (dropLit lit x).map (fun rem => rem ++ w) := by
  intro lit
  induction lit with
  | nil => intro _ x; simp [dropLit]
  | cons l ls ih =>
    intro hl x
    cases x with
    | nil =>
      cases w with
      | nil => simp [dropLit]
      | cons c cs =>
        have hne : l ≠ c := by
          intro e
          have h1 := hl l (List.mem_cons_self _ _)
          have h2 := hw c (List.mem_cons_self _ _)
          rw [e, h2] at h1
          exact Bool.noConfusion h1
        simp [dropLit, hne]
    | cons a x' =>
      by_cases hc : l = a
      · subst hc
        simp only [List.cons_append, dropLit, if_pos rfl]
        exact ih (fun c hcm => hl c (List.mem_cons_of_mem _ hcm)) x'
      · simp [dropLit, hc]

/-! ### The name-pattern matcher -/

theorem nameCapAt_nil (lit : List Char) : nameCapAt lit [] = none := by
  cases lit <;> simp [nameCapAt, dropLit]

theorem nameCapAt_cons (l : Char) (ls : List Char) (a : Char) (t : List Char) :
    nameCapAt (l :: ls) (a :: t) = if l = a then nameCapAt ls t else none := by
  by_cases h : l = a <;> simp [nameCapAt, dropLit, h]

theorem nameCapAt_allWS {w : List Char} (hw : ∀ c ∈ w, isWS c = true) :
    ∀ lit, nameCapAt lit w = none := by
  induction w with
  | nil => intro lit; exact nameCapAt_nil lit
  | cons c w' ih =>
    intro lit
    cases lit with
    | nil =>
      have h3 : isWordChar c = false :=
        not_word_of_ws (hw c (List.mem_cons_self _ _))
      simp [nameCapAt, dropLit, List.takeWhile_cons, h3]
    | cons l ls =>
      rw [nameCapAt_cons]
      by_cases h : l = c
      · rw [if_pos h]
        exact ih (fun x hx => hw x (List.mem_cons_of_mem _ hx)) ls
      · rw [if_neg h]

theorem nameCapAt_append_ws {w : List Char} (hw : ∀ c ∈ w, isWS c = true) :
    ∀ x lit, nameCapAt lit (x ++ w) = nameCapAt lit x := by
  intro x
  induction x with
  | nil =>
    intro lit
    rw [List.nil_append, nameCapAt_nil]
    exact nameCapAt_allWS hw lit
  | cons a x' ih =>
    intro lit
    cases lit with
    | nil =>
      have hnw : ∀ c ∈ w, isWordChar c = false :=
        fun c hc => not_word_of_ws (hw c hc)
      show nameCapAt [] ((a :: x') ++ w) = nameCapAt [] (a :: x')
      simp only [nameCapAt, dropLit]
      rw [takeWhile_append_of_none hnw (a :: x')]
    | cons l ls =>
      rw [List.cons_append, nameCapAt_cons, nameCapAt_cons]
      by_cases h : l = a
      · rw [if_pos h, if_pos h]; exact ih ls
      · rw [if_neg h, if_neg h]

theorem nameCapAt_P1 {lit : List Char} (hne : lit.isEmpty = false)
    (hh : isWS (lit.headD ' ') = false) :
    ∀ u a, nameCapAt lit u = some a → ∃ c u', u = c :: u' ∧ isWS c = false := by
  cases lit with
  | nil => exact absurd hne (by simp)
  | cons l ls =>
    intro u a h
    cases u with
    | nil => rw [nameCapAt_nil] at h; cases h
    | cons c t =>
      rw [nameCapAt_cons] at h
      by_cases e : l = c
      · exact ⟨c, t, rfl, by rw [← e]; simpa using hh⟩
      · rw [if_neg e] at h; cases h

/-! ### Leftmost search and strip-invariance

`match_intent` lower-cases and strips the message before calling the
extractors, while the response generator re-runs them on the raw message.
These lemmas show stripping cannot change an extractor's result, because
every positional matcher (a) only succeeds at a non-whitespace character and
(b) ignores an all-whitespace suffix. -/

theorem searchFirst_none_nil {α : Type} {f : List Char → Option α}
    (hP1 : ∀ u a, f u = some a → ∃ c u', u = c :: u' ∧ isWS c = false) :
    f [] = none := by
  cases h : f [] with
  | none => rfl
  | some a =>
    obtain ⟨c, u', he, -⟩ := hP1 [] a h
    exact List.noConfusion he

theorem searchFirst_ws_head {α : Type} {f : List Char → Option α}
    (hP1 : ∀ u a, f u = some a → ∃ c u', u = c :: u' ∧ isWS c = false) :
    ∀ pre, (∀ c ∈ pre, isWS c = true) →
    ∀ s, searchFirst f (pre ++ s) = searchFirst f s := by
  intro pre
  induction pre with
  | nil => intro _ s; rw [List.nil_append]
  | cons c pre' ih =>
    intro hpre s
    have hf : f (c :: (pre' ++ s)) = none := by
      cases h : f (c :: (pre' ++ s)) with
      | none => rfl
      | some a =>
        obtain ⟨c2, u', he, hnw⟩ := hP1 _ a h
        injection he with h1 h2
        have hc := hpre c (List.mem_cons_self _ _)
        rw [h1, hnw] at hc
        exact Bool.noConfusion hc
    rw [List.cons_append]
    simp only [searchFirst, hf]
    exact ih (fun x hx => hpre x (List.mem_cons_of_mem _ hx)) s

theorem searchFirst_all_ws {α : Type} {f : List Char → Option α}
    (hP1 : ∀ u a, f u = some a → ∃ c u', u = c :: u' ∧ isWS c = false)
    (hP2 : ∀ x w, (∀ c ∈ w, isWS c = true) → f (x ++ w) = f x) :
    ∀ w, (∀ c ∈ w, isWS c = true) → searchFirst f w = none := by
  intro w
  induction w with
  | nil => intro _; exact @searchFirst_none_nil α f hP1
  | cons c w' ih =>
    intro hw
    have hf : f (c :: w') = none := by
      have h := hP2 [] (c :: w') hw
      rw [List.nil_append] at h
      rw [h]
      exact searchFirst_none_nil hP1
    simp only [searchFirst, hf]
    exact ih (fun x hx => hw x (List.mem_cons_of_mem _ hx))

theorem searchFirst_ws_tail {α : Type} {f : List Char → Option α}
    (hP1 : ∀ u a, f u = some a → ∃ c u', u = c :: u' ∧ isWS c = false)
    (hP2 : ∀ x w, (∀ c ∈ w, isWS c = true) → f (x ++ w) = f x) :
    ∀ v w, (∀ c ∈ w, isWS c = true) →
      searchFirst f (v ++ w) = searchFirst f v := by
  intro v
  induction v with
  | nil =>
    intro w hw
    rw [List.nil_append]
    rw [searchFirst_all_ws hP1 hP2 w hw]
    exact (@searchFirst_none_nil α f hP1).symm
  | cons a v' ih =>
    intro w hw
    have hf := hP2 (a :: v') w hw
    rw [List.cons_append] at hf ⊢
    simp only [searchFirst, hf]
    cases h : f (a :: v') with
    | some a0 => rfl
    | none => exact ih w hw

theorem stripList_decomp (u : List Char) :
    ∃ w, (∀ c ∈ w, isWS c = true) ∧
      u.dropWhile isWS = stripList u ++ w := by
  refine ⟨((u.dropWhile isWS).reverse.takeWhile isWS).reverse, ?_, ?_⟩
  · intro c hc
    rw [List.mem_reverse] at hc
    exact List.mem_takeWhile_imp hc
  · rw [stripList]
    conv_lhs => rw [← List.reverse_reverse (u.dropWhile isWS),
      ← List.takeWhile_append_dropWhile isWS (u.dropWhile isWS).reverse]
    rw [List.reverse_append]

theorem searchFirst_strip {α : Type} {f : List Char → Option α}
    (hP1 : ∀ u a, f u = some a → ∃ c u', u = c :: u' ∧ isWS c = false)
    (hP2 : ∀ x w, (∀ c ∈ w, isWS c = true) → f (x ++ w) = f x)
    (s : List Char) :
    searchFirst f (stripList s) = searchFirst f s := by
  obtain ⟨w, hw, hdec⟩ := stripList_decomp s
  have h1 : searchFirst f (stripList s ++ w) = searchFirst f (stripList s) :=
    searchFirst_ws_tail hP1 hP2 _ w hw
  have h2 : searchFirst f (s.takeWhile isWS ++ s.dropWhile isWS) =
      searchFirst f (s.dropWhile isWS) :=
    searchFirst_ws_head hP1 _ (fun c hc => List.mem_takeWhile_imp hc) _
  rw [List.takeWhile_append_dropWhile] at h2
  rw [← hdec] at h1
  rw [← h2] at h1
  exact h1.symm

/-! ### Strip-invariance instances for the order matchers -/

theorem ordDigits_append_ws {w : List Char} (hw : ∀ c ∈ w, isWS c = true)
    (v : List Char) : ordDigits (v ++ w) = ordDigits v := by
  rw [ordDigits, ordDigits,
    takeWhile_append_of_none (fun c hc => not_digit_of_ws (hw c hc)) v]

theorem ordAfterLit_append_ws {w : List Char} (hw : ∀ c ∈ w, isWS c = true)
    (u : List Char) : ordAfterLit (u ++ w) = ordAfterLit u := by
  rw [ordAfterLit, ordAfterLit]
  rcases dropWhile_ws_append_cases hw u with ⟨c, t, hR, hc, hL⟩ | ⟨h1, h2⟩
  · rw [hL, hR]
    by_cases hch : c = '#'
    · simp only [ordHash]
      rw [if_pos hch, if_pos hch]
      rcases dropWhile_ws_append_cases hw t with ⟨c2, t2, hR2, hc2, hL2⟩ |
        ⟨h1', h2'⟩
      · rw [hL2, hR2]
        show ordDigits ((c2 :: t2) ++ w) = ordDigits (c2 :: t2)
        exact ordDigits_append_ws hw _
      · rw [h2', h1']
    · simp only [ordHash]
      rw [if_neg hch, if_neg hch, List.dropWhile_cons, List.dropWhile_cons,
        if_neg (by simp [hc]), if_neg (by simp [hc])]
      show ordDigits ((c :: t) ++ w) = ordDigits (c :: t)
      exact ordDigits_append_ws hw _
  · rw [h2, h1]

theorem ordPatLit_append_ws {w : List Char} (hw : ∀ c ∈ w, isWS c = true)
    {lit : List Char} (hl : ∀ c ∈ lit, isWS c = false) (x : List Char) :
    ordPatLit lit (x ++ w) = ordPatLit lit x := by
  rw [ordPatLit, ordPatLit, dropLit_append_ws hw lit hl x]
  cases h : dropLit lit x with
  | none => rfl
  | some r =>
    simp only [Option.map_some']
    exact ordAfterLit_append_ws hw r

theorem ordPatLit_P1 {lit : List Char} (hne : lit.isEmpty = false)
    (hh : isWS (lit.headD ' ') = false) :
    ∀ u a, ordPatLit lit u = some a → ∃ c u', u = c :: u' ∧ isWS c = false := by
  cases lit with
  | nil => exact absurd hne (by simp)
  | cons l ls =>
    intro u a h
    rw [ordPatLit] at h
    cases hd : dropLit (l :: ls) u with
    | none => rw [hd] at h; exact absurd h (by simp)
    | some r =>
      obtain ⟨u', rfl, -⟩ := dropLit_some_cons hd
      exact ⟨l, u', rfl, by simpa using hh⟩

theorem ordPatHash_P1 :
    ∀ u a, ordPatHash u = some a → ∃ c u', u = c :: u' ∧ isWS c = false := by
  intro u a h
  cases u with
  | nil => exact absurd h (by simp [ordPatHash])
  | cons c r =>
    refine ⟨c, r, rfl, ?_⟩
    by_cases hc : c = '#'
    · rw [hc]; decide
    · rw [ordPatHash, if_neg hc] at h; cases h

theorem ordPatHash_append_ws {w : List Char} (hw : ∀ c ∈ w, isWS c = true)
    (x : List Char) : ordPatHash (x ++ w) = ordPatHash x := by
  cases x with
  | nil =>
    cases w with
    | nil => rfl
    | cons c cs =>
      have hc : c ≠ '#' := by
        intro e
        have h := hw c (List.mem_cons_self _ _)
        rw [e] at h
        exact absurd h (by decide)
      simp [ordPatHash, hc]
  | cons c r =>
    by_cases hc : c = '#'
    · rw [List.cons_append, ordPatHash, ordPatHash, if_pos hc, if_pos hc]
      exact ordDigits_append_ws hw r
    · rw [List.cons_append, ordPatHash, ordPatHash, if_neg hc, if_neg hc]

theorem ordDashDigits_append_ws {w : List Char}
    (hw : ∀ c ∈ w, isWS c = true) (r : List Char) :
    ordDigits (ordDash (r ++ w)) = ordDigits (ordDash r) := by
  cases r with
  | nil =>
    cases w with
    | nil => rfl
    | cons c cs =>
      have hc : c ≠ '-' := by
        intro e
        have h := hw c (List.mem_cons_self _ _)
        rw [e] at h
        exact absurd h (by decide)
      have hd : isDigitC c = false :=
        not_digit_of_ws (hw c (List.mem_cons_self _ _))
      simp [ordDash, hc, ordDigits, List.takeWhile_cons, hd]
  | cons c rr =>
    by_cases hc : c = '-'
    · rw [List.cons_append, ordDash, ordDash, if_pos hc, if_pos hc]
      exact ordDigits_append_ws hw rr
    · rw [List.cons_append, ordDash, ordDash, if_neg hc, if_neg hc]
      show ordDigits ((c :: rr) ++ w) = ordDigits (c :: rr)
      exact ordDigits_append_ws hw _

theorem ordPatORD_append_ws {w : List Char} (hw : ∀ c ∈ w, isWS c = true)
    (x : List Char) : ordPatORD (x ++ w) = ordPatORD x := by
  rw [ordPatORD, ordPatORD, dropLit_append_ws hw _ (by decide) x]
  cases h : dropLit "ord".toList x with
  | none => rfl
  | some r =>
    simp only [Option.map_some']
    exact ordDashDigits_append_ws hw r

theorem ordPatORD_P1 :
    ∀ u a, ordPatORD u = some a → ∃ c u', u = c :: u' ∧ isWS c = false := by
  intro u a h
  rw [ordPatORD] at h
  cases hd : dropLit "ord".toList u with
  | none => rw [hd] at h; exact absurd h (by simp)
  | some r =>
    have he : "ord".toList = 'o' :: "rd".toList := rfl
    rw [he] at hd
    obtain ⟨u', rfl, -⟩ := dropLit_some_cons hd
    exact ⟨'o', u', rfl, by decide⟩

/-! ### Normalization does not change the extractors -/

theorem firstPat_congr {m1 m2 : List Char} :
    ∀ pats : List (List Char),
      (∀ lit ∈ pats,
        searchFirst (nameCapAt lit) m1 = searchFirst (nameCapAt lit) m2) →
      firstPat m1 pats = firstPat m2 pats := by
  intro pats
  induction pats with
  | nil => intro _; rfl
  | cons lit rest ih =>
    intro h
    rw [firstPat, firstPat, h lit (List.mem_cons_self _ _)]
    cases hres : searchFirst (nameCapAt lit) m2 with
    | some w => rfl
    | none => exact ih fun l hl => h l (List.mem_cons_of_mem _ hl)

theorem firstPat_strip (u : List Char) :
    firstPat (stripList u) name_pattern_lits = firstPat u name_pattern_lits := by
  apply firstPat_congr
  intro lit hmem
  have h2 : ∀ x w, (∀ c ∈ w, isWS c = true) →
      nameCapAt lit (x ++ w) = nameCapAt lit x :=
    fun x w hw => nameCapAt_append_ws hw x lit
  simp only [name_pattern_lits, List.mem_cons, List.not_mem_nil,
    or_false] at hmem
  rcases hmem with rfl | rfl | rfl | rfl | rfl <;>
    exact searchFirst_strip (nameCapAt_P1 (by decide) (by decide)) h2 u

theorem extract_name_norm (m : List Char) :
    extract_name (stripList (lowerList m)) = extract_name m := by
  rw [extract_name, extract_name, lowerList_stripList m, firstPat_strip]

theorem extract_order_norm (m : List Char) :
    extract_order_number (stripList (lowerList m)) = extract_order_number m := by
  have hP2a : ∀ x w, (∀ c ∈ w, isWS c = true) →
      ordPatLit "order".toList (x ++ w) = ordPatLit "order".toList x :=
    fun x w hw => ordPatLit_append_ws hw (by decide) x
  have hP2b : ∀ x w, (∀ c ∈ w, isWS c = true) →
      ordPatHash (x ++ w) = ordPatHash x :=
    fun x w hw => ordPatHash_append_ws hw x
  have hP2c : ∀ x w, (∀ c ∈ w, isWS c = true) →
      ordPatORD (x ++ w) = ordPatORD x :=
    fun x w hw => ordPatORD_append_ws hw x
  have hP2d : ∀ x w, (∀ c ∈ w, isWS c = true) →
      ordPatLit "tracking".toList (x ++ w) = ordPatLit "tracking".toList x :=
    fun x w hw => ordPatLit_append_ws hw (by decide) x
  rw [extract_order_number, extract_order_number, lowerList_stripList m,
    searchFirst_strip (ordPatLit_P1 (by decide) (by decide)) hP2a,
    searchFirst_strip ordPatHash_P1 hP2b,
    searchFirst_strip ordPatORD_P1 hP2c,
    searchFirst_strip (ordPatLit_P1 (by decide) (by decide)) hP2d]

/-! ### Classifier lemmas -/

theorem match_intent_of_name {msg : List Char} {nm : String}
    (h : extract_name msg = some nm) : match_intent msg = "name_intro" := by
  simp only [match_intent]
  rw [extract_name_norm msg, h]
  simp

theorem match_intent_of_order {msg : List Char} {d : String}
    (hn : extract_name msg = none) (ho : extract_order_number msg = some d) :
    match_intent msg = "order_tracking" := by
  simp only [match_intent]
  rw [extract_name_norm msg, hn, extract_order_norm msg, ho]
  simp

theorem priorityScan_mem {words : List (List Char)} {i : String} :
    ∀ l, priorityScan words l = some i → i ∈ l := by
  intro l
  induction l with
  | nil => intro h; exact absurd h (by simp [priorityScan])
  | cons a rest ih =>
    intro h
    rw [priorityScan] at h
    cases hg : alist_get responses a with
    | none =>
      simp only [hg] at h
      exact List.mem_cons_of_mem _ (ih h)
    | some d =>
      simp only [hg] at h
      by_cases h2 : (d.patterns.any
          fun p => subsetWords (splitWS p.toList) words) = true
      · rw [if_pos h2] at h
        injection h with h
        rw [← h]
        exact List.mem_cons_self _ _
      · rw [if_neg h2] at h
        exact List.mem_cons_of_mem _ (ih h)

theorem generalScan_mem {m : List Char} {i : String} :
    ∀ l, generalScan m l = some i → ∃ d, (i, d) ∈ l := by
  intro l
  induction l with
  | nil => intro h; exact absurd h (by simp [generalScan])
  | cons p rest ih =>
    intro h
    obtain ⟨a, d⟩ := p
    rw [generalScan] at h
    by_cases h1 : a = "default" ∨ a ∈ priority_intents
    · rw [if_pos h1] at h
      obtain ⟨d2, hd⟩ := ih h
      exact ⟨d2, List.mem_cons_of_mem _ hd⟩
    · rw [if_neg h1] at h
      by_cases h2 : (d.patterns.any
          fun q => bSearch q.toList none m || isSubL q.toList m) = true
      · rw [if_pos h2] at h
        injection h with h
        rw [← h]
        exact ⟨d, List.mem_cons_self _ _⟩
      · rw [if_neg h2] at h
        obtain ⟨d2, hd⟩ := ih h
        exact ⟨d2, List.mem_cons_of_mem _ hd⟩

/-- C2: the classifier is total — on every input it returns one of the named
intents, the empty message resolves to `default`, and every pattern of the
built-in fallback catalog is a non-empty string. -/
theorem classifier_total :
    (∀ msg : List Char, match_intent msg ∈
      ["name_intro", "order_tracking", "return", "refund", "shipping",
       "payment", "contact", "greeting", "default"]) ∧
    match_intent [] = "default" ∧
    responses.all (fun p => p.2.patterns.all (fun q => !(q == ""))) = true := by
  refine ⟨?_, by decide, by decide⟩
  intro msg
  simp only [match_intent]
  split
  · decide
  · split
    · decide
    · split
      · next i heq =>
        have hi := priorityScan_mem _ heq
        simp only [priority_intents, List.mem_cons, List.not_mem_nil,
          or_false] at hi
        rcases hi with rfl | rfl | rfl | rfl | rfl <;> decide
      · split
        · next i heq =>
          obtain ⟨d, hd⟩ := generalScan_mem _ heq
          simp only [responses, List.mem_cons, List.not_mem_nil, or_false,
            Prod.mk.injEq] at hd
          rcases hd with ⟨rfl, -⟩ | ⟨rfl, -⟩ | ⟨rfl, -⟩ <;> decide
        · split
          · decide
          · decide

/-- C3: for every text on which one of the five name-introduction patterns
succeeds, `match_intent` classifies the text as `name_intro`, and the
response generator stores the extracted name — the first matching pattern's
capture, capitalized — on the session and returns the greeting that
interpolates it. -/
theorem name_intro_classified_and_stored (msg : List Char) (s : Session)
    (r : Draws) (nm : String) (h : extract_name msg = some nm) :
    match_intent msg = "name_intro" ∧
    get_personalized_response "name_intro" s msg r =
      (some ("Nice to meet you, " ++ nm ++ "! 🎉 How can I help you today?"),
       { s with name := some nm }) := by
  refine ⟨match_intent_of_name h, ?_⟩
  rw [get_personalized_response, if_pos rfl, h]

/-- C3 witness: a concrete name introduction. -/
theorem name_intro_classified_and_stored_witness :
    extract_name "My name is sam".toList = some "Sam" ∧
    (match_intent "My name is sam".toList = "name_intro" ∧
     get_personalized_response "name_intro" (freshSession 0)
         "My name is sam".toList ⟨0, false⟩ =
       (some ("Nice to meet you, " ++ "Sam" ++ "! 🎉 How can I help you today?"),
        { freshSession 0 with name := some "Sam" })) :=
  ⟨by decide, name_intro_classified_and_stored _ _ _ _ (by decide)⟩

/-- C4 counterexample: a text containing a 5-digit-or-more order reference in
a supported form on which `match_intent` does not return `order_tracking`
(name extraction preempts it). -/
theorem order_tracking_counterexample :
    (extract_order_number preempt_msg).isSome = true ∧
    match_intent preempt_msg ≠ "order_tracking" ∧
    match_intent preempt_msg = "name_intro" := by decide

/-- C4 amended: for every text containing a 5-or-more-digit order reference
in one of the four supported forms and containing no name-introduction
pattern, `match_intent` returns `order_tracking`, and the generator stores
the captured digit string as the session's order number and returns the
canned status message interpolating it. -/
theorem order_tracking_amended (msg : List Char) (s : Session) (r : Draws)
    (d : String) (ho : extract_order_number msg = some d)
    (hn : extract_name msg = none) :
    match_intent msg = "order_tracking" ∧
    get_personalized_response "order_tracking" s msg r =
      (some ("Let me check order #" ++ d ++ " for you... 📦 It" ++ aposS ++
             "s currently being processed and will ship within 2 business days."),
       { s with last_order := some d }) := by
  refine ⟨match_intent_of_order hn ho, ?_⟩
  rw [get_personalized_response, if_neg (by decide), gpr_order, if_pos rfl, ho]

/-- C4 witness: a concrete order reference without a name pattern. -/
theorem order_tracking_amended_witness :
    extract_order_number "order #12345".toList = some "12345" ∧
    extract_name "order #12345".toList = none ∧
    (match_intent "order #12345".toList = "order_tracking" ∧
     get_personalized_response "order_tracking" (freshSession 0)
         "order #12345".toList ⟨0, false⟩ =
       (some ("Let me check order #" ++ "12345" ++ " for you... 📦 It" ++
              aposS ++
              "s currently being processed and will ship within 2 business days."),
        { freshSession 0 with last_order := some "12345" })) :=
  ⟨by decide, by decide, order_tracking_amended _ _ _ _ (by decide) (by decide)⟩

/-! ### Store lemmas -/

theorem alist_get_set_self {α : Type} (conv : List (String × α)) (k : String)
    (v : α) : alist_get (alist_set conv k v) k = some v := by
  induction conv with
  | nil => simp [alist_set, alist_get]
  | cons p rest ih =>
    obtain ⟨k2, v2⟩ := p
    by_cases h : k2 = k
    · rw [alist_set, if_pos h, alist_get, if_pos h]
    · rw [alist_set, if_neg h, alist_get, if_neg h]
      exact ih

theorem alist_get_set_ne {α : Type} (conv : List (String × α))
    (k sid : String) (v : α) (hne : k ≠ sid) :
    alist_get (alist_set conv k v) sid = alist_get conv sid := by
  induction conv with
  | nil =>
    simp only [alist_set, alist_get]
    rw [if_neg hne]
  | cons p rest ih =>
    obtain ⟨k2, v2⟩ := p
    by_cases h : k2 = k
    · have hks : k2 ≠ sid := by rw [h]; exact hne
      rw [alist_set, if_pos h, alist_get, alist_get, if_neg hks, if_neg hks]
    · rw [alist_set, if_neg h, alist_get, alist_get]
      by_cases h2 : k2 = sid
      · rw [if_pos h2, if_pos h2]
      · rw [if_neg h2, if_neg h2]
        exact ih

theorem alist_get_erase_self {α : Type} (conv : List (String × α))
    (k : String) : alist_get (alist_erase conv k) k = none := by
  induction conv with
  | nil => rfl
  | cons p rest ih =>
    obtain ⟨k2, v2⟩ := p
    by_cases h : k2 = k
    · rw [alist_erase, if_pos h]; exact ih
    · rw [alist_erase, if_neg h, alist_get, if_neg h]; exact ih

theorem alist_get_erase_ne {α : Type} (conv : List (String × α))
    (k sid : String) (hne : sid ≠ k) :
    alist_get (alist_erase conv k) sid = alist_get conv sid := by
  induction conv with
  | nil => rfl
  | cons p rest ih =>
    obtain ⟨k2, v2⟩ := p
    by_cases h : k2 = k
    · have hks : k2 ≠ sid := by rw [h]; exact fun e => hne e.symm
      rw [alist_erase, if_pos h, ih, alist_get, if_neg hks]
    · rw [alist_erase, if_neg h, alist_get, alist_get]
      by_cases h2 : k2 = sid
      · rw [if_pos h2, if_pos h2]
      · rw [if_neg h2, if_neg h2]
        exact ih

/-! ### Generator lemmas -/

theorem pyChoice_mem {pool : List String} {r : Draws} {x : String}
    (h : pyChoice pool r = some x) : x ∈ pool := by
  cases pool with
  | nil => exact absurd h (by simp [pyChoice])
  | cons p ps =>
    rw [pyChoice] at h
    injection h with h
    rw [← h, List.getD_eq_getElem?_getD]
    cases hg : (p :: ps)[r.ix % (p :: ps).length]? with
    | none => exact List.mem_cons_self _ _
    | some y => exact List.getElem?_mem hg

theorem pyChoice_isSome {pool : List String} (h : pool ≠ []) (r : Draws) :
    (pyChoice pool r).isSome = true := by
  cases pool with
  | nil => exact absurd rfl h
  | cons p ps => rfl

theorem pool_for_spec (intent : String) :
    pool_for intent ≠ [] ∧ ∀ x ∈ pool_for intent, x ≠ "" := by
  by_cases h1 : "greeting" = intent
  · rw [← h1]; exact ⟨by decide, by decide⟩
  by_cases h2 : "return" = intent
  · rw [← h2]; exact ⟨by decide, by decide⟩
  by_cases h3 : "default" = intent
  · rw [← h3]; exact ⟨by decide, by decide⟩
  have hg : alist_get responses intent = none := by
    simp only [responses, alist_get, if_neg h1, if_neg h2, if_neg h3]
  have hp : pool_for intent = default_pool := by rw [pool_for, hg]
  rw [hp]
  exact ⟨by decide, by decide⟩

theorem gpr_pool_snd (intent : String) (s : Session) (r : Draws) :
    (gpr_pool intent s r).2 = s := by
  rw [gpr_pool]
  cases pyChoice (pool_for intent) r with
  | none => rfl
  | some resp =>
    dsimp only
    by_cases hc : (s.name.isSome && r.coin) = true
    · rw [if_pos hc]
      cases s.name with
      | none => cases resp.toList with | nil => rfl | cons c rest => rfl
      | some nm => cases resp.toList with | nil => rfl | cons c rest => rfl
    · rw [if_neg hc]

theorem gpr_pool_isSome (intent : String) (s : Session) (r : Draws) :
    ((gpr_pool intent s r).1).isSome = true := by
  obtain ⟨hne, hnonempty⟩ := pool_for_spec intent
  rw [gpr_pool]
  cases hp : pyChoice (pool_for intent) r with
  | none =>
    have h := pyChoice_isSome hne r
    rw [hp] at h
    cases h
  | some resp =>
    dsimp only
    by_cases hc : (s.name.isSome && r.coin) = true
    · rw [if_pos hc]
      have hresp : resp ≠ "" := hnonempty resp (pyChoice_mem hp)
      cases hn : s.name with
      | none =>
        rw [hn] at hc
        simp at hc
      | some nm =>
        cases resp with
        | mk data =>
          cases hdata : data with
          | nil =>
            exfalso
            apply hresp
            rw [hdata]
          | cons c rest => rfl
    · rw [if_neg hc]
      rfl

theorem gpr_order_snd (intent : String) (s : Session) (msg : List Char)
    (r : Draws) :
    ((gpr_order intent s msg r).2).messages = s.messages ∧
    ((gpr_order intent s msg r).2).message_count = s.message_count := by
  rw [gpr_order]
  by_cases h : intent = "order_tracking"
  · rw [if_pos h]
    cases extract_order_number msg with
    | some d => exact ⟨rfl, rfl⟩
    | none => rw [gpr_pool_snd]; exact ⟨rfl, rfl⟩
  · rw [if_neg h, gpr_pool_snd]; exact ⟨rfl, rfl⟩

theorem gpr_snd_frame (intent : String) (s : Session) (msg : List Char)
    (r : Draws) :
    ((get_personalized_response intent s msg r).2).messages = s.messages ∧
    ((get_personalized_response intent s msg r).2).message_count =
      s.message_count := by
  rw [get_personalized_response]
  by_cases h1 : intent = "name_intro"
  · rw [if_pos h1]
    cases extract_name msg with
    | some nm => exact ⟨rfl, rfl⟩
    | none => exact gpr_order_snd intent s msg r
  · rw [if_neg h1]
    exact gpr_order_snd intent s msg r

theorem gpr_order_isSome (intent : String) (s : Session) (msg : List Char)
    (r : Draws) : ((gpr_order intent s msg r).1).isSome = true := by
  rw [gpr_order]
  by_cases h : intent = "order_tracking"
  · rw [if_pos h]
    cases extract_order_number msg with
    | some d => rfl
    | none => exact gpr_pool_isSome intent s r
  · rw [if_neg h]
    exact gpr_pool_isSome intent s r

theorem gpr_isSome (intent : String) (s : Session) (msg : List Char)
    (r : Draws) :
    ((get_personalized_response intent s msg r).1).isSome = true := by
  rw [get_personalized_response]
  by_cases h1 : intent = "name_intro"
  · rw [if_pos h1]
    cases extract_name msg with
    | some nm => rfl
    | none => exact gpr_order_isSome intent s msg r
  · rw [if_neg h1]
    exact gpr_order_isSome intent s msg r

theorem gpr_name_fallthrough (s : Session) (msg : List Char) (r : Draws)
    (hn : extract_name msg = none) :
    get_personalized_response "name_intro" s msg r =
      gpr_pool "name_intro" s r := by
  rw [get_personalized_response, if_pos rfl, hn, gpr_order, if_neg (by decide)]

theorem gpr_order_fallthrough (s : Session) (msg : List Char) (r : Draws)
    (ho : extract_order_number msg = none) :
    get_personalized_response "order_tracking" s msg r =
      gpr_pool "order_tracking" s r := by
  rw [get_personalized_response, if_neg (by decide), gpr_order, if_pos rfl, ho]

/-- C10: the response generator is total even when its classification
precondition is violated — it always produces some response, and when
`name_intro` (resp. `order_tracking`) arrives with no extractable name
(resp. order number) it falls through to the catalog/default-pool branch,
leaving the session (in particular its name and last order) unchanged. -/
theorem generator_total_fallthrough (intent : String) (s : Session)
    (msg : List Char) (r : Draws) :
    ((get_personalized_response intent s msg r).1).isSome = true ∧
    (intent = "name_intro" → extract_name msg = none →
      get_personalized_response intent s msg r = gpr_pool intent s r ∧
      (get_personalized_response intent s msg r).2 = s) ∧
    (intent = "order_tracking" → extract_order_number msg = none →
      get_personalized_response intent s msg r = gpr_pool intent s r ∧
      (get_personalized_response intent s msg r).2 = s) := by
  refine ⟨gpr_isSome intent s msg r, ?_, ?_⟩
  · intro h1 h2
    subst h1
    have he := gpr_name_fallthrough s msg r h2
    exact ⟨he, by rw [he, gpr_pool_snd]⟩
  · intro h1 h2
    subst h1
    have he := gpr_order_fallthrough s msg r h2
    exact ⟨he, by rw [he, gpr_pool_snd]⟩

/-- C10 witness: `name_intro` with no extractable name still answers and
leaves the session untouched. -/
theorem generator_total_fallthrough_witness :
    ((get_personalized_response "name_intro" (freshSession 3)
        "no pattern here".toList ⟨0, true⟩).1).isSome = true ∧
    (get_personalized_response "name_intro" (freshSession 3)
        "no pattern here".toList ⟨0, true⟩).2 = freshSession 3 := by
  have h := generator_total_fallthrough "name_intro" (freshSession 3)
    "no pattern here".toList ⟨0, true⟩
  exact ⟨h.1, (h.2.1 rfl (by decide)).2⟩

/-- C7: clearing succeeds with the same confirmation whether or not the
session exists, reading the history of a cleared id yields the empty log and
empty metadata, and so does reading any unknown id. -/
theorem clear_consistent_history (conv : Conversations) (sid : String) :
    (clear_session conv sid).1 = "cleared" ∧
    get_history (clear_session conv sid).2 sid =
      { history := [], session_data := none } ∧
    (alist_get conv sid = none →
      get_history conv sid = { history := [], session_data := none }) := by
  refine ⟨rfl, ?_, ?_⟩
  · show get_history (alist_erase conv sid) sid = _
    simp only [get_history, alist_get_erase_self]
  · intro h
    simp only [get_history, h]

/-- C7 witness: clear an existing session, then read it and an unknown id. -/
theorem clear_consistent_history_witness :
    (clear_session [("w1", freshSession 0)] "w1").1 = "cleared" ∧
    get_history (clear_session [("w1", freshSession 0)] "w1").2 "w1" =
      { history := [], session_data := none } ∧
    get_history [("w1", freshSession 0)] "nosuch" =
      { history := [], session_data := none } := by
  have h1 := clear_consistent_history [("w1", freshSession 0)] "w1"
  have h2 := clear_consistent_history [("w1", freshSession 0)] "nosuch"
  exact ⟨h1.1, h1.2.1, h2.2.2 (by decide)⟩

/-! ### Orchestrator lemmas and claims -/

/-- C1: on a turn whose computed sentiment is `negative` and whose
post-increment message counter exceeds 3, `chat` returns exactly the fixed
escalation response with the three escalation quick replies, and invokes
neither the intent classifier nor the response generator. -/
theorem chat_escalation_short_circuit (conv : Conversations) (msg : List Char)
    (sid : String) (sentiment : String) (t1 t2 : Nat) (r : Draws)
    (hs : sentiment = "negative")
    (hc : 3 < ((alist_get conv sid).getD (freshSession t1)).message_count + 1) :
    chat conv msg sid sentiment t1 t2 r =
      { result := some
          { response := escalation_text,
            intent := none,
            sentiment := sentiment,
            quick_replies := ["Yes please", "No thanks", "Continue chat"],
            name := none,
            session_id := sid },
        conv := alist_set conv sid
          (recordUser ((alist_get conv sid).getD (freshSession t1)) msg t1),
        ghost := { classifier_invoked := false, generator_invoked := false } } := by
  simp only [chat]
  rw [if_pos ⟨hs, hc⟩]

/-- C1 witness: a concrete escalating turn. -/
theorem chat_escalation_short_circuit_witness :
    ("negative" = "negative" ∧
     3 < ((alist_get escConvW "w1").getD (freshSession 5)).message_count + 1) ∧
    chat escConvW "so bad".toList "w1" "negative" 5 6 ⟨2, true⟩ =
      { result := some
          { response := escalation_text,
            intent := none,
            sentiment := "negative",
            quick_replies := ["Yes please", "No thanks", "Continue chat"],
            name := none,
            session_id := "w1" },
        conv := alist_set escConvW "w1"
          (recordUser ((alist_get escConvW "w1").getD (freshSession 5))
            "so bad".toList 5),
        ghost := { classifier_invoked := false, generator_invoked := false } } :=
  ⟨⟨rfl, by decide⟩,
   chat_escalation_short_circuit _ _ _ _ _ _ _ rfl (by decide)⟩

/-- C9: on an escalation turn over an existing session, every session field
other than the message counter and the log is unchanged, and the only log
change is the appended user entry. -/
theorem escalation_frame (conv : Conversations) (msg : List Char)
    (sid : String) (sentiment : String) (t1 t2 : Nat) (r : Draws)
    (s0 : Session) (hsess : alist_get conv sid = some s0)
    (hs : sentiment = "negative") (hc : 3 < s0.message_count + 1) :
    alist_get (chat conv msg sid sentiment t1 t2 r).conv sid =
      some { name := s0.name, message_count := s0.message_count + 1,
             last_intent := s0.last_intent, last_order := s0.last_order,
             messages := s0.messages ++
               [{ role := "user", message := String.mk msg, timestamp := t1 }],
             created_at := s0.created_at } := by
  have hc2 : 3 < ((alist_get conv sid).getD (freshSession t1)).message_count + 1 := by
    rw [hsess]
    exact hc
  rw [chat_escalation_short_circuit conv msg sid sentiment t1 t2 r hs hc2]
  show alist_get (alist_set conv sid _) sid = _
  rw [alist_get_set_self, hsess]
  rfl

/-- C9 witness: the escalating turn of `escConvW` only bumps the counter and
appends the user entry. -/
theorem escalation_frame_witness :
    alist_get (chat escConvW "ugh".toList "w1" "negative" 9 10 ⟨1, false⟩).conv
        "w1" =
      some { name := sessW.name, message_count := sessW.message_count + 1,
             last_intent := sessW.last_intent, last_order := sessW.last_order,
             messages := sessW.messages ++
               [{ role := "user", message := String.mk "ugh".toList,
                  timestamp := 9 }],
             created_at := sessW.created_at } :=
  escalation_frame escConvW "ugh".toList "w1" "negative" 9 10 ⟨1, false⟩ sessW
    (by decide) rfl (by decide)

/-- C6: the code contradicts the claim — on an escalation turn the outbound
escalation message is NOT appended to the session log: the turn returns the
escalation response, yet the final log holds only the appended user entry
and no bot entry. -/
theorem escalation_log_divergence :
    ((chat escConvW "this is awful".toList "w1" "negative" 7 8
        ⟨0, false⟩).result.map (fun res => res.response)) =
      some escalation_text ∧
    alist_get (chat escConvW "this is awful".toList "w1" "negative" 7 8
        ⟨0, false⟩).conv "w1" =
      some { name := none, message_count := 4, last_intent := none,
             last_order := none,
             messages := [{ role := "user", message := "a", timestamp := 0 },
                          { role := "user", message := "b", timestamp := 1 },
                          { role := "user", message := "c", timestamp := 2 },
                          { role := "user", message := "this is awful",
                            timestamp := 7 }],
             created_at := 0 } := by decide

/-- C8 counterexample: an escalation-branch result omits the `intent` and
`name` fields of the produced JSON object. -/
theorem escalation_missing_fields_counterexample :
    ((chat escConvW "grr".toList "w1" "negative" 1 2 ⟨0, false⟩).result.map
      (fun res => (res.intent, res.name))) = some (none, none) := by decide

/-- C8 amended: every result of a non-escalation turn carries all six fields
(in particular `intent` and `name` are present), while the escalation
short-circuit branch produces a result without `intent` and `name`. -/
theorem chat_result_fields (conv : Conversations) (msg : List Char)
    (sid : String) (sentiment : String) (t1 t2 : Nat) (r : Draws)
    (res : ChatResult)
    (hres : (chat conv msg sid sentiment t1 t2 r).result = some res) :
    ((sentiment = "negative" ∧
        3 < ((alist_get conv sid).getD (freshSession t1)).message_count + 1) →
      res.intent = none ∧ res.name = none) ∧
    (¬(sentiment = "negative" ∧
        3 < ((alist_get conv sid).getD (freshSession t1)).message_count + 1) →
      res.intent.isSome = true ∧ res.name.isSome = true) := by
  constructor
  · intro hesc
    rw [chat_escalation_short_circuit conv msg sid sentiment t1 t2 r hesc.1
      hesc.2] at hres
    injection hres with hres
    rw [← hres]
    exact ⟨rfl, rfl⟩
  · intro hesc
    simp only [chat] at hres
    have hesc2 : ¬(sentiment = "negative" ∧
        3 < (recordUser ((alist_get conv sid).getD (freshSession t1))
          msg t1).message_count) := hesc
    rw [if_neg hesc2] at hres
    split at hres
    · injection hres with hres
      rw [← hres]
      exact ⟨rfl, rfl⟩
    · exact Option.noConfusion hres

/-- C8 witness: a concrete non-escalation turn has both fields present. -/
theorem chat_result_fields_witness :
    (chat [] "hello".toList "s1" "neutral" 0 1 ⟨0, false⟩).result =
      some resW ∧
    resW.intent.isSome = true ∧ resW.name.isSome = true := by
  have h := chat_result_fields [] "hello".toList "s1" "neutral" 0 1 ⟨0, false⟩
    resW (by decide)
  exact ⟨by decide, (h.2 (by decide)).1, (h.2 (by decide)).2⟩

/-! ### The session-store invariant (C5) -/

theorem userCount_append_user (ms : List Message) (m : Message)
    (h : m.role = "user") : userCount (ms ++ [m]) = userCount ms + 1 := by
  rw [userCount, userCount, List.filter_append, List.length_append]
  simp [h]

theorem userCount_append_other (ms : List Message) (m : Message)
    (h : ¬(m.role = "user")) : userCount (ms ++ [m]) = userCount ms := by
  rw [userCount, userCount, List.filter_append, List.length_append]
  simp [h]

theorem chat_conv_update (conv : Conversations) (msg : List Char)
    (sid sentiment : String) (t1 t2 : Nat) (r : Draws) :
    ∃ sX, (chat conv msg sid sentiment t1 t2 r).conv = alist_set conv sid sX ∧
      sX.message_count =
        ((alist_get conv sid).getD (freshSession t1)).message_count + 1 ∧
      userCount sX.messages =
        userCount ((alist_get conv sid).getD (freshSession t1)).messages + 1 := by
  simp only [chat]
  split
  · exact ⟨recordUser ((alist_get conv sid).getD (freshSession t1)) msg t1,
      rfl, rfl, userCount_append_user _ _ rfl⟩
  · split
    next response s3 heq =>
      refine ⟨_, rfl, ?_, ?_⟩
      · have hfr := gpr_snd_frame (match_intent msg)
          { recordUser ((alist_get conv sid).getD (freshSession t1)) msg t1 with
            last_intent := some (match_intent msg) } msg r
        rw [heq] at hfr
        exact hfr.2
      · have hfr := gpr_snd_frame (match_intent msg)
          { recordUser ((alist_get conv sid).getD (freshSession t1)) msg t1 with
            last_intent := some (match_intent msg) } msg r
        rw [heq] at hfr
        show userCount (s3.messages ++
          [{ role := "bot", message := response, timestamp := t2 }]) = _
        rw [userCount_append_other _ _
          (fun he => absurd he (show ¬("bot" = "user") by decide)), hfr.1]
        exact userCount_append_user _ _ rfl
    next s3 heq =>
      refine ⟨s3, rfl, ?_, ?_⟩
      · have hfr := gpr_snd_frame (match_intent msg)
          { recordUser ((alist_get conv sid).getD (freshSession t1)) msg t1 with
            last_intent := some (match_intent msg) } msg r
        rw [heq] at hfr
        exact hfr.2
      · have hfr := gpr_snd_frame (match_intent msg)
          { recordUser ((alist_get conv sid).getD (freshSession t1)) msg t1 with
            last_intent := some (match_intent msg) } msg r
        rw [heq] at hfr
        rw [hfr.1]
        exact userCount_append_user _ _ rfl

theorem sessionInv_step (conv : Conversations) (op : Op)
    (h : sessionInv conv) : sessionInv (applyOp conv op) := by
  cases op with
  | clearTurn sid =>
    intro sid2 s2 hget
    rw [show applyOp conv (Op.clearTurn sid) = alist_erase conv sid from rfl]
      at hget
    by_cases he : sid2 = sid
    · rw [he, alist_get_erase_self] at hget
      exact Option.noConfusion hget
    · rw [alist_get_erase_ne _ _ _ he] at hget
      exact h _ _ hget
  | chatTurn msg sid sentiment t1 t2 r =>
    obtain ⟨sX, hconv, hcount, huser⟩ :=
      chat_conv_update conv msg sid sentiment t1 t2 r
    intro sid2 s2 hget
    rw [show applyOp conv (Op.chatTurn msg sid sentiment t1 t2 r) =
        (chat conv msg sid sentiment t1 t2 r).conv from rfl, hconv] at hget
    by_cases he : sid = sid2
    · subst he
      rw [alist_get_set_self] at hget
      injection hget with hget
      rw [← hget]
      show sX.message_count = userCount sX.messages
      rw [hcount, huser]
      have hs0 : ((alist_get conv sid).getD (freshSession t1)).message_count =
          userCount ((alist_get conv sid).getD (freshSession t1)).messages := by
        cases hg : alist_get conv sid with
        | none => rfl
        | some s => exact h sid s hg
      rw [hs0]
    · rw [alist_get_set_ne _ _ _ _ he] at hget
      exact h _ _ hget

theorem runOps_inv :
    ∀ (ops : List Op) (conv : Conversations),
      sessionInv conv → sessionInv (runOps ops conv) := by
  intro ops
  induction ops with
  | nil => intro conv h; exact h
  | cons op rest ih => intro conv h; exact ih _ (sessionInv_step conv op h)

/-- C5: starting from the empty store, after any sequence of operations
(chat turns — session-creating, escalating or not — and clears), every
stored session's message counter equals the number of user-role entries in
its log. -/
theorem session_counter_invariant (ops : List Op) :
    sessionInv (runOps ops []) :=
  runOps_inv ops [] (fun _ _ h => Option.noConfusion h)
